import Mathlib

/-!
Shallow embedding of the Level 2 unified trading system
(src/level2_unified_system.py).

Numeric values are modelled as rationals (the Python source uses floats;
every constant appearing in the source — 0.5, 0.8, 1.5, 0.005, 0.3, 0.15,
0.2, 0.7, 0.8 — is exactly representable, and Python's `round(x, n)`
rounds half to even, which is modelled exactly below).  Timestamps are
rationals passed explicitly: the source reads `datetime.now(timezone.utc)`,
modelled as a `now` parameter.  Strings stay strings.
-/

namespace Level2

/-- Python `round` to an integer: round half to even (banker's rounding);
away from a tie this is rounding to the nearest integer. -/
def pyRound (q : ℚ) : ℤ :=
  if q - ⌊q⌋ = 1/2 then (if ⌊q⌋ % 2 = 0 then ⌊q⌋ else ⌊q⌋ + 1) else ⌊q + 1/2⌋

/-- Python `round(q, 1)`. -/
def round1 (q : ℚ) : ℚ := (pyRound (q * 10) : ℚ) / 10

/-- Python `round(q, 2)`, used for price aggregation keys. -/
def round2 (q : ℚ) : ℚ := (pyRound (q * 100) : ℚ) / 100

/-- `np.mean` over a list of rationals. -/
def npMean (l : List ℚ) : ℚ := l.sum / l.length

/-! ## HiddenOrderDetector -/

/-- A time-and-sales trade as stored by `HiddenOrderDetector.add_trade`. -/
structure Trade where
  price : ℚ
  size : ℚ
  side : String
  timestamp : ℚ
deriving DecidableEq

/-- Sensitivity thresholds from `HiddenOrderDetector._get_thresholds`. -/
structure Thresholds where
  volume_threshold : ℚ
  price_movement_min : ℚ
  refresh_count : ℕ
  divergence_ratio : ℚ
deriving DecidableEq

/-- `HiddenOrderDetector._get_thresholds`: the dict lookup with a
`'medium'` fallback for unknown sensitivities. -/
def get_thresholds (sensitivity : String) : Thresholds :=
  if sensitivity = "low" then ⟨5, 2/100, 5, 4⟩
  else if sensitivity = "high" then ⟨2, 1/100, 2, 2⟩
  else ⟨3, 15/1000, 3, 3⟩

/-- Result record of `HiddenOrderDetector.calculate_volume_metrics`. -/
structure VolumeMetrics where
  buy_volume : ℚ
  sell_volume : ℚ
  net_volume : ℚ
  buy_trades : ℕ
  sell_trades : ℕ
deriving DecidableEq

/-- `HiddenOrderDetector.calculate_volume_metrics(seconds)`: `None` when the
trade buffer is empty or nothing is inside the trailing window, otherwise
buy/sell volume and counts over trades with `timestamp >= now - seconds`. -/
def calculate_volume_metrics (now seconds : ℚ) (trades : List Trade) :
    Option VolumeMetrics :=
  if trades = [] then none
  else
    let cutoff := now - seconds
    let recent := trades.filter (fun t => decide (cutoff ≤ t.timestamp))
    if recent = [] then none
    else
      let buys := recent.filter (fun t => decide (t.side = "buy"))
      let sells := recent.filter (fun t => decide (t.side = "sell"))
      let buy_volume := (buys.map Trade.size).sum
      let sell_volume := (sells.map Trade.size).sum
      some ⟨buy_volume, sell_volume, buy_volume - sell_volume,
            buys.length, sells.length⟩

/-- `HiddenOrderDetector.calculate_price_change(seconds)`.  The source keeps
`price_history` and `timestamp_history` as two parallel deques that are
always appended together; they are modelled as one list of
`(price, timestamp)` pairs.  Returns the fractional change between the
first and last price inside the trailing window, `None` with fewer than two
qualifying samples. -/
def calculate_price_change (now seconds : ℚ) (ph : List (ℚ × ℚ)) : Option ℚ :=
  if ph.length < 2 then none
  else
    let cutoff := now - seconds
    let recent := ph.filter (fun pt => decide (cutoff ≤ pt.2))
    if recent.length < 2 then none
    else
      match recent with
      | [] => none
      | first :: rest =>
        let last := (first :: rest).getLast (List.cons_ne_nil _ _)
        some ((last.1 - first.1) / first.1)

/-- The refill-counting loop of `HiddenOrderDetector.detect_iceberg_orders`:
for every index `i` in `1 .. len-2`, a refill is counted when
`sizes[i] < sizes[i-1] * 0.5` and `sizes[i+1] > sizes[i-1] * 0.8`
(both comparisons strict, exactly as in the source). -/
def countRefills : List ℚ → ℕ
  | [] => 0
  | a :: rest =>
      (match rest with
       | b :: c :: _ => if b < a * (1/2) ∧ a * (4/5) < c then 1 else 0
       | _ => 0) + countRefills rest

/-- An iceberg report produced by `detect_iceberg_orders`. -/
structure Iceberg where
  price : ℚ
  side : String
  avg_size : ℚ
  refills : ℕ
  strength : String
deriving DecidableEq

/-- `HiddenOrderDetector.detect_iceberg_orders`: empty with fewer than 5
book snapshots; otherwise each `(side, price)` level with at least 5
retained `(timestamp, size)` samples is scanned for refills and reported
when the refill count meets `refresh_count`; strength HIGH at `refills >= 5`. -/
def detect_iceberg_orders (snapshotCount : ℕ)
    (plh : List ((String × ℚ) × List (ℚ × ℚ))) (th : Thresholds) :
    List Iceberg :=
  if snapshotCount < 5 then []
  else
    plh.filterMap (fun entry =>
      if entry.2.length < 5 then none
      else
        let sizes := entry.2.map Prod.snd
        let refills := countRefills sizes
        if th.refresh_count ≤ refills then
          some ⟨entry.1.2, entry.1.1, npMean sizes, refills,
                if 5 ≤ refills then "HIGH" else "MEDIUM"⟩
        else none)

/-- A hidden-buyer / hidden-seller report inside `detect_hidden_orders`
results (its `strength`, the relevant one-sided volume and the price
change). -/
structure HiddenFlag where
  strength : String
  volume : ℚ
  price_change : ℚ
deriving DecidableEq

/-- The `analysis` sub-dict of a `detect_hidden_orders` result (modelled as
`none` when the dict is left empty). -/
structure Analysis where
  buy_volume : ℚ
  sell_volume : ℚ
  price_change_pct : ℚ
deriving DecidableEq

/-- The result dict of `HiddenOrderDetector.detect_hidden_orders`. -/
structure HiddenResults where
  hidden_buyer : Option HiddenFlag
  hidden_seller : Option HiddenFlag
  icebergs : List Iceberg
  analysis : Option Analysis
deriving DecidableEq

/-- The mutable state of a `HiddenOrderDetector` that
`detect_hidden_orders` reads: the trade buffer, the (price, timestamp)
history, how many order-book snapshots were retained, the per-level
`(timestamp, size)` histories and the sensitivity thresholds. -/
structure DetectorState where
  trades : List Trade
  price_history : List (ℚ × ℚ)
  order_book_snapshots_count : ℕ
  price_level_history : List ((String × ℚ) × List (ℚ × ℚ))
  thresholds : Thresholds

/-- `HiddenOrderDetector.detect_hidden_orders`: the empty result below the
10-trade / 10-price-sample minimum; otherwise hidden buyer when
`sell_volume > buy_volume * 1.5` and `price_change > -0.005` (strength HIGH
when `price_change > 0`, else MEDIUM), hidden seller mirrored, and the
iceberg scan. -/
def detect_hidden_orders (now : ℚ) (st : DetectorState) : HiddenResults :=
  if st.trades.length < 10 ∨ st.price_history.length < 10 then
    ⟨none, none, [], none⟩
  else
    let icebergs := detect_iceberg_orders st.order_book_snapshots_count
      st.price_level_history st.thresholds
    match calculate_volume_metrics now 30 st.trades,
          calculate_price_change now 30 st.price_history with
    | some v, some p =>
        ⟨(if v.buy_volume * (3/2) < v.sell_volume ∧ -(5/1000) < p then
            some ⟨(if 0 < p then "HIGH" else "MEDIUM"), v.sell_volume, p⟩
          else none),
         (if v.sell_volume * (3/2) < v.buy_volume ∧ p < 5/1000 then
            some ⟨(if p < 0 then "HIGH" else "MEDIUM"), v.buy_volume, p⟩
          else none),
         icebergs,
         some ⟨v.buy_volume, v.sell_volume, p * 100⟩⟩
    | _, _ => ⟨none, none, icebergs, none⟩

/-! ## SignalGenerator -/

/-- The local-minima scan of `SignalGenerator.find_support_resistance`:
`prices[i]` for `i` in `2 .. len-3` is a support candidate when strictly
below both neighbours on each side. -/
def localMinima : List ℚ → List ℚ
  | [] => []
  | a :: rest =>
      (match rest with
       | b :: c :: d :: e :: _ => if c < b ∧ c < a ∧ c < d ∧ c < e then [c] else []
       | _ => []) ++ localMinima rest

/-- The mirrored local-maxima scan (resistance candidates). -/
def localMaxima : List ℚ → List ℚ
  | [] => []
  | a :: rest =>
      (match rest with
       | b :: c :: d :: e :: _ => if b < c ∧ a < c ∧ d < c ∧ e < c then [c] else []
       | _ => []) ++ localMaxima rest

/-- The accumulation loop of `SignalGenerator._cluster_levels`: `current`
is the (always non-empty) cluster being grown; a level joins it when its
relative gap to the cluster's last member is below the tolerance, otherwise
the finished cluster is replaced by its mean and a new one starts. -/
def clusterLoop (tolerance : ℚ) (current : List ℚ) : List ℚ → List ℚ
  | [] => [npMean current]
  | l :: rest =>
      if |l - current.getLastD 0| / current.getLastD 0 < tolerance then
        clusterLoop tolerance (current ++ [l]) rest
      else
        npMean current :: clusterLoop tolerance [l] rest

/-- `SignalGenerator._cluster_levels(levels, tolerance=0.01)`. -/
def cluster_levels (levels : List ℚ) (tolerance : ℚ) : List ℚ :=
  match levels.insertionSort (· ≤ ·) with
  | [] => []
  | first :: rest => clusterLoop tolerance [first] rest

/-- `SignalGenerator.find_support_resistance` over the retained microprice
history: empty below 20 samples, otherwise clustered local minima
(support) and maxima (resistance). -/
def find_support_resistance (ph : List ℚ) : List ℚ × List ℚ :=
  if ph.length < 20 then ([], [])
  else
    let support := localMinima ph
    let resistance := localMaxima ph
    ((if support = [] then [] else cluster_levels support (1/100)),
     (if resistance = [] then [] else cluster_levels resistance (1/100)))

/-- Python `min(levels, key=lambda x: abs(x - cp))`: first minimiser wins
ties.  Returns 0 on an empty list (the source never calls it on one). -/
def nearestLevel (levels : List ℚ) (cp : ℚ) : ℚ :=
  match levels with
  | [] => 0
  | first :: rest =>
      rest.foldl (fun best l => if |l - cp| < |best - cp| then l else best) first

/-- The feature fields `SignalGenerator.generate_signal` reads (the source
passes the full feature dict of `get_order_book_features`; the remaining
entries are display-only and never consulted by the scorer). -/
structure Features where
  microprice : ℚ
  mid_price : ℚ
  spread_bps : ℚ
  weighted_imbalance : ℚ
  queue_imbalance : ℚ
  session : String
deriving DecidableEq

/-- Rule 1 of `generate_signal`: the queue-imbalance contribution
(`> 0.3` → +3, `> 0.15` → +1, `< -0.3` → -3, `< -0.15` → -1, strict
comparisons exactly as in the source's `if`/`elif` chain). -/
def queueScore (qi : ℚ) : ℚ :=
  if 3/10 < qi then 3
  else if 15/100 < qi then 1
  else if qi < -(3/10) then -3
  else if qi < -(15/100) then -1
  else 0

/-- Rule 2 of `generate_signal`: the weighted-imbalance contribution. -/
def weightedScore (wi : ℚ) : ℚ :=
  if 1/5 < wi then 1 else if wi < -(1/5) then -1 else 0

/-- Rule 3 of `generate_signal`: a spread above 50 bps multiplies the
running score by 0.7. -/
def spreadAdjust (spread_bps score : ℚ) : ℚ :=
  if 50 < spread_bps then score * (7/10) else score

/-- Rule 4 of `generate_signal` (lines 399-413): only when BOTH the support
and the resistance list are non-empty, +2 for a nearest support within
0.5% of the current price and -2 for a nearest resistance within 0.5%. -/
def srScore (support resistance : List ℚ) (cp : ℚ) : ℚ :=
  if support ≠ [] ∧ resistance ≠ [] then
    (if |cp - nearestLevel support cp| / cp < 5/1000 then 2 else 0) +
    (if |cp - nearestLevel resistance cp| / cp < 5/1000 then -2 else 0)
  else 0

/-- Rule 5 of `generate_signal`: +2 / -2 for a detected hidden buyer /
seller and +1 (bid) or -1 (ask) for each of the first two icebergs. -/
def hiddenScore (h : Option HiddenResults) : ℚ :=
  match h with
  | none => 0
  | some r =>
      (if r.hidden_buyer.isSome then 2 else 0) +
      (if r.hidden_seller.isSome then -2 else 0) +
      ((r.icebergs.take 2).map
        (fun ice => if ice.side = "bid" then (1 : ℚ) else -1)).sum

/-- Rule 6 of `generate_signal`: extended-hours sessions multiply the
running score by 0.8. -/
def sessionAdjust (session : String) (score : ℚ) : ℚ :=
  if session = "PREMARKET" ∨ session = "AFTERHOURS" then score * (4/5) else score

/-- The signal record returned by `generate_signal` (the human-readable
`reasons` strings are display-only and omitted). -/
structure Signal where
  signal : String
  confidence : ℚ
  score : ℚ
  price : ℚ
deriving DecidableEq

/-- `SignalGenerator.generate_signal(features, hidden_order_results)`:
sequential additive scoring (rules 1-6 in source order, the spread and
session adjustments multiplying the score accumulated so far), then the
final mapping `score >= 3` → BUY, `score <= -3` → SELL, else NEUTRAL, with
confidence `round(min(score / 8 * 100, 100), 1)` for BUY,
`round(min(abs(score) / 8 * 100, 100), 1)` for SELL and `round(30, 1)` for
NEUTRAL.  `price_history` is the generator's retained microprice deque that
`find_support_resistance` scans. -/
def generate_signal (features : Option Features) (price_history : List ℚ)
    (hidden : Option HiddenResults) : Signal :=
  match features with
  | none => ⟨"NEUTRAL", 0, 0, 0⟩
  | some f =>
      let current_price := f.microprice
      let sr := find_support_resistance price_history
      let s3 := spreadAdjust f.spread_bps
        (queueScore f.queue_imbalance + weightedScore f.weighted_imbalance)
      let s6 := sessionAdjust f.session
        (s3 + srScore sr.1 sr.2 current_price + hiddenScore hidden)
      if 3 ≤ s6 then
        ⟨"BUY", round1 (min (s6 / 8 * 100) 100), s6, current_price⟩
      else if s6 ≤ -3 then
        ⟨"SELL", round1 (min (|s6| / 8 * 100) 100), s6, current_price⟩
      else
        ⟨"NEUTRAL", round1 30, s6, current_price⟩

/-! ## UnifiedLevel2System -/

/-- Python's lexicographic order on `(price, size)` tuples, the order used
by `sorted()` over `dict.items()` in `_on_ticker_update` and
`get_current_snapshot`. -/
def pairLe (a b : ℚ × ℚ) : Prop := a.1 < b.1 ∨ (a.1 = b.1 ∧ a.2 ≤ b.2)

instance : DecidableRel pairLe := fun a b => by
  unfold pairLe; exact inferInstance

/-- One dict update of the aggregation loop in `_on_ticker_update`:
`book[price] += size` when the key exists, `book[price] = size` otherwise.
The dict is modelled as an insertion-ordered association list. -/
def insertLevel (m : List (ℚ × ℚ)) (price size : ℚ) : List (ℚ × ℚ) :=
  if m.any (fun kv => decide (kv.1 = price)) then
    m.map (fun kv => if kv.1 = price then (kv.1, kv.2 + size) else kv)
  else m ++ [(price, size)]

/-- One side of the `_on_ticker_update` rebuild: starting from a cleared
dict, every depth level with positive price and size is aggregated under
its price rounded to 2 decimals; non-positive entries are dropped. -/
def aggregateSide (levels : List (ℚ × ℚ)) : List (ℚ × ℚ) :=
  levels.foldl
    (fun m l => if 0 < l.1 ∧ 0 < l.2 then insertLevel m (round2 l.1) l.2 else m) []

/-- The live aggregated order book (`self.current_order_book`). -/
structure Book where
  bids : List (ℚ × ℚ)
  asks : List (ℚ × ℚ)
deriving DecidableEq

/-- The book-rebuilding part of `UnifiedLevel2System._on_ticker_update`
(lines 721-758): both per-side dicts are cleared and re-aggregated from the
full depth arrays of the update batch. -/
def on_ticker_update (_book : Book) (domBids domAsks : List (ℚ × ℚ)) : Book :=
  { bids := aggregateSide domBids, asks := aggregateSide domAsks }

/-- The snapshot dict returned by `get_current_snapshot` (timestamp
omitted; `bid_count`/`ask_count` are the lengths of the stored lists). -/
structure Snapshot where
  session : String
  bids : List (ℚ × ℚ)
  asks : List (ℚ × ℚ)
  best_bid : ℚ
  best_ask : ℚ
  spread : ℚ
deriving DecidableEq

/-- The bid list of a snapshot: aggregated bids sorted descending
(Python `sorted(..., reverse=True)`), truncated to 20 levels. -/
def snapBids (book : Book) : List (ℚ × ℚ) :=
  ((book.bids.insertionSort pairLe).reverse).take 20

/-- The ask list of a snapshot: aggregated asks sorted ascending,
truncated to 20 levels. -/
def snapAsks (book : Book) : List (ℚ × ℚ) :=
  (book.asks.insertionSort pairLe).take 20

/-- `UnifiedLevel2System.get_current_snapshot`: `None` when either side is
empty, otherwise bids sorted descending and asks ascending (Python tuple
order), both truncated to 20 levels.  The market session comes from the
wall clock in the source (`get_market_session`) and is modelled as an
input enum. -/
def get_current_snapshot (book : Book) (session : String) : Option Snapshot :=
  if book.bids = [] ∨ book.asks = [] then none
  else
    let bids := snapBids book
    let asks := snapAsks book
    if bids = [] ∨ asks = [] then none
    else
      some ⟨session, bids, asks, (bids.headD (0, 0)).1, (asks.headD (0, 0)).1,
            (asks.headD (0, 0)).1 - (bids.headD (0, 0)).1⟩

/-- The effective depth used by the weighted-imbalance and
queue-imbalance computations of `get_order_book_features`:
`min(5, len(bids), len(asks))` over the snapshot lists. -/
def effDepth (book : Book) : ℕ :=
  min 5 (min (snapBids book).length (snapAsks book).length)

/-- `UnifiedLevel2System.calculate_microprice`: size-weighted price with a
midpoint fallback when the total size is zero. -/
def calculate_microprice (best_bid best_ask bid_size ask_size : ℚ) : ℚ :=
  if bid_size + ask_size = 0 then (best_bid + best_ask) / 2
  else (best_bid * ask_size + best_ask * bid_size) / (bid_size + ask_size)

/-- The reciprocal-rank pressure sum
`sum(size / (i + 1) for i, (_, size) in enumerate(levels))`, with `i`
starting at the given index. -/
def pressureFrom (i : ℕ) : List (ℚ × ℚ) → ℚ
  | [] => 0
  | (_, size) :: rest => size / ((i : ℚ) + 1) + pressureFrom (i + 1) rest

/-- `UnifiedLevel2System.calculate_queue_imbalance(bids, asks, levels)`:
0 on an empty side; during PREMARKET/AFTERHOURS the depth is narrowed to
`min(levels, min(len(bids), len(asks)))`; reciprocal-rank pressures with a
zero-total guard. -/
def calculate_queue_imbalance (session : String) (bids asks : List (ℚ × ℚ))
    (levels : ℕ) : ℚ :=
  if bids = [] ∨ asks = [] then 0
  else
    let levels :=
      if session = "PREMARKET" ∨ session = "AFTERHOURS" then
        min levels (min bids.length asks.length)
      else levels
    let bid_pressure := pressureFrom 0 (bids.take levels)
    let ask_pressure := pressureFrom 0 (asks.take levels)
    if bid_pressure + ask_pressure = 0 then 0
    else (bid_pressure - ask_pressure) / (bid_pressure + ask_pressure)

/-- The rank-weighted size sum
`sum(size * (K + 1 - i) for i, (_, size) in enumerate(levels))` of
`get_order_book_features`, with `i` starting at the given index. -/
def weightedSumFrom (K : ℕ) (i : ℕ) : List (ℚ × ℚ) → ℚ
  | [] => 0
  | (_, size) :: rest =>
      size * ((K : ℚ) + 1 - (i : ℚ)) + weightedSumFrom K (i + 1) rest

/-- `UnifiedLevel2System.get_order_book_features` (lines 824-917), kept to
the fields the claims and the scorer consume; the remaining dict entries
(per-level echoes, depth-10 sums, counts, warnings) are further outputs of
the same record and never feed back into any computation. -/
def get_order_book_features (book : Book) (session : String) :
    Option Features :=
  match get_current_snapshot book session with
  | none => none
  | some snap =>
      if snap.bids = [] ∨ snap.asks = [] then none
      else
        let bids := snap.bids
        let asks := snap.asks
        let best_bid := (bids.headD (0, 0)).1
        let best_ask := (asks.headD (0, 0)).1
        let best_bid_size := (bids.headD (0, 0)).2
        let best_ask_size := (asks.headD (0, 0)).2
        let microprice :=
          calculate_microprice best_bid best_ask best_bid_size best_ask_size
        let depth_5 := min 5 (min bids.length asks.length)
        let weighted_bid := weightedSumFrom depth_5 0 (bids.take depth_5)
        let weighted_ask := weightedSumFrom depth_5 0 (asks.take depth_5)
        some
          { microprice := microprice
            mid_price := (best_bid + best_ask) / 2
            spread_bps := snap.spread / microprice * 10000
            weighted_imbalance :=
              if 0 < weighted_bid + weighted_ask then
                (weighted_bid - weighted_ask) / (weighted_bid + weighted_ask)
              else 0
            queue_imbalance :=
              calculate_queue_imbalance session bids asks depth_5
            session := session }

/-! ## Spec-shaped definitions (for refinement comparisons)

`sizeAt` and `specRankSum` restate the spec's description of the weighted
imbalance — "levels weighted by descending rank" with an explicit weight
per rank — to be compared against the source-derived `weightedSumFrom`. -/

/-- The size at index `j` of a `(price, size)` list, 0 past the end. -/
def sizeAt (l : List (ℚ × ℚ)) (j : ℕ) : ℚ :=
  ((l.get? j).map Prod.snd).getD 0

/-- Modelled from the spec: a rank-weighted sum over the top `K` levels,
rank `r` (1-based) receiving weight `w r`. -/
def specRankSum (K : ℕ) (w : ℕ → ℚ) (l : List (ℚ × ℚ)) : ℚ :=
  ∑ r ∈ Finset.range K, w (r + 1) * sizeAt l r

/-- Modelled from the spec: the weighted imbalance with the spec's stated
weights — "rank 1 weight K, rank K weight 1" — over the top-K levels,
0 when the weighted sums do not add to a positive total. -/
def weightedImbalanceSpec (K : ℕ) (bids asks : List (ℚ × ℚ)) : ℚ :=
  let wb := specRankSum K (fun r => (K : ℚ) + 1 - r) bids
  let wa := specRankSum K (fun r => (K : ℚ) + 1 - r) asks
  if 0 < wb + wa then (wb - wa) / (wb + wa) else 0

/-! ## Concrete test inputs -/

/-- A V-shaped 21-sample microprice history: one local minimum at 100,
no local maximum, hence support `[100]` and empty resistance. -/
def vHistory : List ℚ :=
  [110, 109, 108, 107, 106, 105, 104, 103, 102, 101, 100,
   101, 102, 103, 104, 105, 106, 107, 108, 109, 110]

/-- A 21-sample history with one local minimum at 100 and one local
maximum at 200, hence support `[100]` and resistance `[200]`. -/
def wHistory : List ℚ :=
  [150, 140, 130, 120, 110, 100, 110, 120, 130, 140, 150,
   160, 170, 180, 190, 200, 190, 180, 170, 160, 150]

/-- Ten in-window trades at timestamp 100: buy volume 10, sell volume 20. -/
def tenTrades : List Trade :=
  List.replicate 5 ⟨1000, 2, "buy", 100⟩ ++ List.replicate 5 ⟨1000, 4, "sell", 100⟩

/-- Ten in-window price samples moving from 1000 to 1001: a fractional
price change of +0.001 over the window. -/
def tenPrices : List (ℚ × ℚ) :=
  (1000, 100) :: List.replicate 8 ((1000 : ℚ), (100 : ℚ)) ++ [(1001, 100)]

/-- A detector state holding `tenTrades` and `tenPrices` (no book
snapshots, default medium sensitivity). -/
def tenState : DetectorState :=
  ⟨tenTrades, tenPrices, 0, [], get_thresholds "medium"⟩

/-- A two-level book on each side (already aggregated). -/
def twoBook : Book :=
  ⟨[(100, 1), (99, 1)], [(101, 1), (102, 3)]⟩

/-! ## Theorems -/

/-- C7: for positive `best_bid <= best_ask`, the microprice lies in
`[best_bid, best_ask]` whenever both sizes are positive, and equals the
midpoint when both sizes are zero; the zero-total guard means no division
by zero ever occurs. -/
theorem c7_microprice_bounds (best_bid best_ask bid_size ask_size : ℚ)
    (_hb : 0 < best_bid) (hba : best_bid ≤ best_ask) :
    (0 < bid_size → 0 < ask_size →
      best_bid ≤ calculate_microprice best_bid best_ask bid_size ask_size ∧
      calculate_microprice best_bid best_ask bid_size ask_size ≤ best_ask) ∧
    (bid_size = 0 → ask_size = 0 →
      calculate_microprice best_bid best_ask bid_size ask_size =
        (best_bid + best_ask) / 2) := by
  constructor
  · intro hbs has
    have hsum : 0 < bid_size + ask_size := by linarith
    unfold calculate_microprice
    rw [if_neg hsum.ne']
    constructor
    · rw [le_div_iff₀ hsum]; nlinarith
    · rw [div_le_iff₀ hsum]; nlinarith
  · intro h1 h2
    unfold calculate_microprice
    rw [if_pos (by rw [h1, h2]; ring)]

/-- Witness for C7 at `best_bid = 1, best_ask = 2, sizes 1 and 1`. -/
theorem c7_witness :
    (1 : ℚ) ≤ calculate_microprice 1 2 1 1 ∧ calculate_microprice 1 2 1 1 ≤ 2 :=
  (c7_microprice_bounds 1 2 1 1 (by norm_num) (by norm_num)).1
    (by norm_num) (by norm_num)

/-- C9: with fewer than 10 recorded trades or fewer than 10 recorded price
updates, `detect_hidden_orders` returns the empty result record — no
hidden buyer or seller, no icebergs, empty analysis — and in particular
cannot raise. -/
theorem c9_insufficient_data (now : ℚ) (st : DetectorState)
    (h : st.trades.length < 10 ∨ st.price_history.length < 10) :
    detect_hidden_orders now st = ⟨none, none, [], none⟩ := by
  unfold detect_hidden_orders
  rw [if_pos h]

/-- Witness for C9 on an empty detector state. -/
theorem c9_witness :
    detect_hidden_orders 0 ⟨[], [], 0, [], get_thresholds "medium"⟩ =
      ⟨none, none, [], none⟩ :=
  c9_insufficient_data 0 _ (Or.inl (by simp))

/-- C2 counterexample: the retained size history
`[100, 40, 85, 90, 45, 95]` yields exactly 1 refill event, not the 2 the
claim states — the third window `(90, 45, 95)` fails the strict drop test
since `45 < 90 * 0.5` is false. -/
theorem c2_counterexample :
    countRefills [100, 40, 85, 90, 45, 95] = 1 ∧
    countRefills [100, 40, 85, 90, 45, 95] ≠ 2 := by
  have h : countRefills [100, 40, 85, 90, 45, 95] = 1 := by with_unfolding_all rfl
  exact ⟨h, by rw [h]; decide⟩

/-- C2 amended: refills are counted over every 3-sample sliding window
with STRICT comparisons — the middle sample strictly below 50% of the
preceding one and the following sample strictly above 80% of it (the count
is the number of such consecutive triples) — and the history
`[100, 40, 85, 90, 45, 95]` yields exactly 1 refill event. -/
theorem c2_refill_strict :
    (∀ sizes : List ℚ,
        countRefills sizes =
          (sizes.zip (sizes.tail.zip sizes.tail.tail)).countP
            (fun x => decide (x.2.1 < x.1 * (1/2)) && decide (x.1 * (4/5) < x.2.2))) ∧
    countRefills [100, 40, 85, 90, 45, 95] = 1 := by
  constructor
  · intro sizes
    induction sizes with
    | nil => rfl
    | cons a rest ih =>
      cases rest with
      | nil => simp [countRefills]
      | cons b rest2 =>
        cases rest2 with
        | nil => simpa [countRefills, List.countP] using ih
        | cons c rest3 =>
          rw [countRefills]
          rw [ih]
          simp only [List.tail_cons, List.zip_cons_cons, List.countP_cons]
          simp only [Bool.and_eq_true, decide_eq_true_eq]
          rw [Nat.add_comm]
  · with_unfolding_all rfl

/-- Helper: the score field of `generate_signal` is the rule-1..6 pipeline
value, in every branch of the final mapping. -/
theorem generate_signal_score (f : Features) (ph : List ℚ) (h : Option HiddenResults) :
    (generate_signal (some f) ph h).score =
      sessionAdjust f.session
        (spreadAdjust f.spread_bps
            (queueScore f.queue_imbalance + weightedScore f.weighted_imbalance) +
          srScore (find_support_resistance ph).1 (find_support_resistance ph).2
            f.microprice +
          hiddenScore h) := by
  simp only [generate_signal]
  split_ifs <;> rfl

/-- Helper: rounding the NEUTRAL confidence of 30 to one decimal is a
no-op. -/
theorem round1_thirty : round1 30 = 30 := by with_unfolding_all rfl

/-- C1 counterexample: queue imbalance 0.35 (+3), spread 60 bps (x0.7) and
a support level within 0.5% (+2) give score 4.1 and signal BUY, but the
returned confidence is `round(51.25, 1) = 51.2`, not the un-rounded
`min(|score|/8*100, 100) = 51.25` the claim states. -/
theorem c1_counterexample :
    (generate_signal (some ⟨100, 100, 60, 0, 35/100, "REGULAR"⟩) wHistory none).signal
        = "BUY" ∧
    (generate_signal (some ⟨100, 100, 60, 0, 35/100, "REGULAR"⟩) wHistory none).score
        = 41/10 ∧
    (generate_signal (some ⟨100, 100, 60, 0, 35/100, "REGULAR"⟩) wHistory none).confidence
        = 256/5 ∧
    (generate_signal (some ⟨100, 100, 60, 0, 35/100, "REGULAR"⟩) wHistory none).confidence
      ≠ min
        (|(generate_signal (some ⟨100, 100, 60, 0, 35/100, "REGULAR"⟩) wHistory none).score|
          / 8 * 100) 100 := by
  have h : generate_signal (some ⟨100, 100, 60, 0, 35/100, "REGULAR"⟩) wHistory none
      = ⟨"BUY", 256/5, 41/10, 100⟩ := by with_unfolding_all rfl
  rw [h]
  refine ⟨rfl, rfl, rfl, ?_⟩
  rw [show |(41/10 : ℚ)| = 41/10 from abs_of_pos (by norm_num)]
  rw [min_eq_left (by norm_num)]
  norm_num

/-- C1 amended: the final mapping of `generate_signal` sends score >= +3
to BUY, score <= -3 to SELL and everything else to NEUTRAL; the BUY/SELL
confidence is `min(|score|/8*100, 100)` ROUNDED TO ONE DECIMAL (Python
`round`, half to even) and the NEUTRAL confidence is the fixed value 30;
the concrete input with queue_imbalance 0.35, weighted_imbalance 0,
spread 10 bps, no hidden orders and REGULAR session scores +3 and yields
BUY with confidence 37.5. -/
theorem c1_final_mapping :
    (∀ (f : Features) (ph : List ℚ) (h : Option HiddenResults),
        (generate_signal (some f) ph h).signal =
          (if 3 ≤ (generate_signal (some f) ph h).score then "BUY"
           else if (generate_signal (some f) ph h).score ≤ -3 then "SELL"
           else "NEUTRAL") ∧
        (generate_signal (some f) ph h).confidence =
          (if 3 ≤ (generate_signal (some f) ph h).score ∨
              (generate_signal (some f) ph h).score ≤ -3 then
            round1 (min (|(generate_signal (some f) ph h).score| / 8 * 100) 100)
           else 30)) ∧
    generate_signal (some ⟨100, 100, 10, 0, 35/100, "REGULAR"⟩) [] none =
      ⟨"BUY", 75/2, 3, 100⟩ := by
  refine ⟨fun f ph h => ?_, by with_unfolding_all rfl⟩
  by_cases h1 : 3 ≤ sessionAdjust f.session
      (spreadAdjust f.spread_bps
          (queueScore f.queue_imbalance + weightedScore f.weighted_imbalance) +
        srScore (find_support_resistance ph).1 (find_support_resistance ph).2
          f.microprice +
        hiddenScore h)
  · refine ⟨by simp [generate_signal, h1], ?_⟩
    simp [generate_signal, h1]
    rw [abs_of_nonneg (by linarith)]
  · by_cases h2 : sessionAdjust f.session
        (spreadAdjust f.spread_bps
            (queueScore f.queue_imbalance + weightedScore f.weighted_imbalance) +
          srScore (find_support_resistance ph).1 (find_support_resistance ph).2
            f.microprice +
          hiddenScore h) ≤ -3
    · exact ⟨by simp [generate_signal, h1, h2], by simp [generate_signal, h1, h2]⟩
    · exact ⟨by simp [generate_signal, h1, h2],
        by simp [generate_signal, h1, h2, round1_thirty]⟩

/-- Helper: a zero weighted imbalance contributes nothing. -/
theorem weightedScore_zero : weightedScore 0 = 0 := by
  norm_num [weightedScore]

/-- Helper: a spread of 0 bps leaves the score unchanged. -/
theorem spreadAdjust_zero (x : ℚ) : spreadAdjust 0 x = x := by
  unfold spreadAdjust
  rw [if_neg (by norm_num)]

/-- Helper: the REGULAR session leaves the score unchanged. -/
theorem sessionAdjust_regular (x : ℚ) : sessionAdjust "REGULAR" x = x := by
  unfold sessionAdjust
  rw [if_neg (by simp)]

/-- Helper: with fewer than 20 retained prices there are no levels. -/
theorem find_support_resistance_nil : find_support_resistance [] = ([], []) := by
  with_unfolding_all rfl

/-- Helper: with an empty support list rule 4 contributes nothing. -/
theorem srScore_empty_support (res : List ℚ) (cp : ℚ) : srScore [] res cp = 0 := by
  simp [srScore]

/-- Helper: with an empty resistance list rule 4 contributes nothing. -/
theorem srScore_empty_resistance (sup : List ℚ) (cp : ℚ) : srScore sup [] cp = 0 := by
  simp [srScore]

/-- C5 counterexample: the thresholds are strict — a queue imbalance of
exactly 0.30 contributes +1 (not the claimed +3) and exactly 0.15
contributes 0 (not the claimed +1), observed through the final score of
`generate_signal` with every other input neutral. -/
theorem c5_counterexample :
    (generate_signal (some ⟨100, 100, 0, 0, 3/10, "REGULAR"⟩) [] none).score = 1 ∧
    (generate_signal (some ⟨100, 100, 0, 0, 3/10, "REGULAR"⟩) [] none).score ≠ 3 ∧
    (generate_signal (some ⟨100, 100, 0, 0, 15/100, "REGULAR"⟩) [] none).score = 0 ∧
    (generate_signal (some ⟨100, 100, 0, 0, 15/100, "REGULAR"⟩) [] none).score ≠ 1 := by
  have ha : (generate_signal (some ⟨100, 100, 0, 0, 3/10, "REGULAR"⟩) [] none).score = 1 := by
    with_unfolding_all rfl
  have hb : (generate_signal (some ⟨100, 100, 0, 0, 15/100, "REGULAR"⟩) [] none).score = 0 := by
    with_unfolding_all rfl
  exact ⟨ha, by rw [ha]; norm_num, hb, by rw [hb]; norm_num⟩

/-- C5 amended: the queue-imbalance rule contributes +3 only when the
imbalance is strictly above 0.30, +1 when strictly above 0.15 (and at most
0.30), -3 when strictly below -0.30 and -1 when strictly below -0.15 (and
at least -0.30); at the boundaries, exactly 0.30 contributes +1 and
exactly 0.15 contributes 0; with all other inputs neutral the final score
of `generate_signal` is exactly this contribution. -/
theorem c5_queue_thresholds_strict :
    (∀ qi : ℚ, 3/10 < qi → queueScore qi = 3) ∧
    (∀ qi : ℚ, 15/100 < qi → qi ≤ 3/10 → queueScore qi = 1) ∧
    (∀ qi : ℚ, qi < -(3/10) → queueScore qi = -3) ∧
    (∀ qi : ℚ, -(3/10) ≤ qi → qi < -(15/100) → queueScore qi = -1) ∧
    queueScore (3/10) = 1 ∧ queueScore (15/100) = 0 ∧
    (∀ qi : ℚ,
      (generate_signal (some ⟨100, 100, 0, 0, qi, "REGULAR"⟩) [] none).score =
        queueScore qi) := by
  refine ⟨?_, ?_, ?_, ?_, by with_unfolding_all rfl, by with_unfolding_all rfl, ?_⟩
  · intro qi h; unfold queueScore; rw [if_pos h]
  · intro qi h1 h2; unfold queueScore
    rw [if_neg (by linarith), if_pos h1]
  · intro qi h; unfold queueScore
    rw [if_neg (by linarith), if_neg (by linarith), if_pos h]
  · intro qi h1 h2; unfold queueScore
    rw [if_neg (by linarith), if_neg (by linarith), if_neg (by linarith), if_pos h2]
  · intro qi
    rw [generate_signal_score]
    simp only [find_support_resistance_nil]
    rw [weightedScore_zero, spreadAdjust_zero, srScore_empty_support,
      sessionAdjust_regular]
    show queueScore qi + 0 + 0 + hiddenScore none = queueScore qi
    simp [hiddenScore]

/-- Witness for C5 amended at queue imbalances 0.5 and 0.2. -/
theorem c5_witness : queueScore (1/2) = 3 ∧ queueScore (1/5) = 1 :=
  ⟨c5_queue_thresholds_strict.1 (1/2) (by norm_num),
   c5_queue_thresholds_strict.2.1 (1/5) (by norm_num) (by norm_num)⟩

/-- C3 counterexample: with in-window buy volume 10, sell volume 20 and a
price change of +0.001, `detect_hidden_orders` does flag a hidden buyer,
but with strength HIGH — the price moved up, the surprising direction —
not the MEDIUM the claim states. -/
theorem c3_counterexample :
    (detect_hidden_orders 100 tenState).hidden_buyer = some ⟨"HIGH", 20, 1/1000⟩ ∧
    (detect_hidden_orders 100 tenState).hidden_buyer.map HiddenFlag.strength
      ≠ some "MEDIUM" := by
  have h : (detect_hidden_orders 100 tenState).hidden_buyer
      = some ⟨"HIGH", 20, 1/1000⟩ := by with_unfolding_all rfl
  refine ⟨h, ?_⟩
  rw [h]
  simp

/-- C3 amended: whenever at least 10 trades and 10 price updates are
recorded, the 30-second volume metrics report buy volume 10 and sell
volume 20 and the 30-second price change is +0.001, `detect_hidden_orders`
flags a hidden buyer with strength HIGH (ratio 2.0 >= 1.5, price not down
beyond -0.5%, and the price moved up so the strength rule picks HIGH). -/
theorem c3_hidden_buyer_high (now : ℚ) (st : DetectorState) (vm : VolumeMetrics)
    (h10t : 10 ≤ st.trades.length) (h10p : 10 ≤ st.price_history.length)
    (hvm : calculate_volume_metrics now 30 st.trades = some vm)
    (hbuy : vm.buy_volume = 10) (hsell : vm.sell_volume = 20)
    (hpc : calculate_price_change now 30 st.price_history = some (1/1000)) :
    (detect_hidden_orders now st).hidden_buyer = some ⟨"HIGH", 20, 1/1000⟩ := by
  unfold detect_hidden_orders
  rw [if_neg (by omega), hvm, hpc]
  simp only
  rw [hbuy, hsell]
  rw [if_pos (by norm_num)]
  rw [if_pos (by norm_num)]

/-- Witness for C3 amended on the concrete ten-trade state. -/
theorem c3_witness :
    (detect_hidden_orders 100 tenState).hidden_buyer = some ⟨"HIGH", 20, 1/1000⟩ :=
  c3_hidden_buyer_high 100 tenState ⟨10, 20, -10, 5, 5⟩
    (by with_unfolding_all (exact Nat.le_refl 10))
    (by with_unfolding_all (exact Nat.le_refl 10))
    (by with_unfolding_all rfl) rfl rfl
    (by with_unfolding_all rfl)

/-- C6 counterexample: on a V-shaped history the support set is `[100]`
(non-empty, and 100 is within 0.5% of the current price 100) while the
resistance set is empty — yet the score of `generate_signal` stays 0: the
claimed +2 support contribution does NOT fire with an empty resistance
set, because rule 4 is guarded by `support and resistance`. -/
theorem c6_counterexample :
    (find_support_resistance vHistory).1 = [100] ∧
    (find_support_resistance vHistory).2 = [] ∧
    |(100 : ℚ) - nearestLevel [100] 100| / 100 < 5/1000 ∧
    (generate_signal (some ⟨100, 100, 0, 0, 0, "REGULAR"⟩) vHistory none).score = 0 ∧
    (generate_signal (some ⟨100, 100, 0, 0, 0, "REGULAR"⟩) vHistory none).score ≠ 2 := by
  have h : (generate_signal (some ⟨100, 100, 0, 0, 0, "REGULAR"⟩) vHistory none).score
      = 0 := by with_unfolding_all rfl
  exact ⟨by with_unfolding_all rfl, by with_unfolding_all rfl,
    by norm_num [nearestLevel], h, by rw [h]; norm_num⟩

/-- C6 amended: the support/resistance proximity contributions fire only
when BOTH level sets are non-empty — with an empty resistance set the
whole rule is skipped and the signal is the one computed with no levels at
all — and when both sets are non-empty the +2 support and -2 resistance
contributions fire independently of each other. -/
theorem c6_sr_requires_both :
    (∀ (f : Features) (ph : List ℚ) (h : Option HiddenResults),
        (find_support_resistance ph).2 = [] →
          generate_signal (some f) ph h = generate_signal (some f) [] h) ∧
    (∀ (sup res : List ℚ) (cp : ℚ), sup ≠ [] → res ≠ [] →
        srScore sup res cp =
          (if |cp - nearestLevel sup cp| / cp < 5/1000 then 2 else 0) +
          (if |cp - nearestLevel res cp| / cp < 5/1000 then -2 else 0)) := by
  constructor
  · intro f ph h hres
    simp only [generate_signal, find_support_resistance_nil, hres]
    rw [srScore_empty_resistance, srScore_empty_support]
  · intro sup res cp hs hr
    unfold srScore
    rw [if_pos ⟨hs, hr⟩]

/-- Witness for C6 amended: on the V-shaped history (empty resistance) the
signal equals the no-levels signal, and with both `[100]` and `[200]`
present against price 100 the support contribution alone fires (+2). -/
theorem c6_witness :
    generate_signal (some ⟨100, 100, 0, 0, 0, "REGULAR"⟩) vHistory none =
      generate_signal (some ⟨100, 100, 0, 0, 0, "REGULAR"⟩) [] none ∧
    srScore [100] [200] 100 = 2 := by
  constructor
  · exact c6_sr_requires_both.1 _ vHistory none (by with_unfolding_all rfl)
  · rw [c6_sr_requires_both.2 [100] [200] 100 (by simp) (by simp)]
    with_unfolding_all rfl

/-- Helper: the enumerate-style rank-weighted sum as a `Finset.range`
sum over positions. -/
theorem weightedSumFrom_eq (K : ℕ) (l : List (ℚ × ℚ)) : ∀ i : ℕ,
    weightedSumFrom K i l =
      ∑ j ∈ Finset.range l.length,
        ((K : ℚ) + 1 - ((i : ℚ) + (j : ℚ))) * sizeAt l j := by
  induction l with
  | nil => intro i; simp [weightedSumFrom]
  | cons x rest ih =>
    intro i
    obtain ⟨p, s⟩ := x
    rw [weightedSumFrom, ih (i + 1), List.length_cons, Finset.sum_range_succ']
    have hsucc : ∀ j : ℕ, sizeAt ((p, s) :: rest) (j + 1) = sizeAt rest j :=
      fun j => rfl
    have h0 : sizeAt ((p, s) :: rest) 0 = s := rfl
    simp only [hsucc, h0]
    push_cast
    ring_nf
    congr 1
    exact Finset.sum_congr rfl fun x _ => by ring

/-- Helper: the source's weighted sum over `l.take K` equals the
rank-weighted sum with rank `r` (1-based) carrying weight `K + 2 - r`. -/
theorem weightedSum_take (K : ℕ) (l : List (ℚ × ℚ)) :
    weightedSumFrom K 0 (l.take K) =
      specRankSum K (fun r => (K : ℚ) + 2 - r) l := by
  rw [weightedSumFrom_eq K (l.take K) 0]
  unfold specRankSum
  calc ∑ j ∈ Finset.range (l.take K).length,
        ((K : ℚ) + 1 - ((0 : ℚ) + (j : ℚ))) * sizeAt (l.take K) j
      = ∑ j ∈ Finset.range (min K l.length),
          ((K : ℚ) + 1 - (j : ℚ)) * sizeAt l j := by
        rw [List.length_take]
        refine Finset.sum_congr rfl fun j hj => ?_
        rw [Finset.mem_range] at hj
        have hjK : j < K := lt_of_lt_of_le hj (min_le_left _ _)
        rw [sizeAt, sizeAt, List.get?_take hjK]
        ring_nf
    _ = ∑ j ∈ Finset.range K, ((K : ℚ) + 1 - (j : ℚ)) * sizeAt l j := by
        refine Finset.sum_subset (Finset.range_subset.mpr (min_le_left _ _))
          fun j hj hnj => ?_
        rw [Finset.mem_range] at hj hnj
        have hlen : l.length ≤ j := by omega
        rw [sizeAt, List.get?_eq_none.mpr hlen]
        simp
    _ = ∑ r ∈ Finset.range K, ((K : ℚ) + 2 - ((r : ℚ) + 1)) * sizeAt l r := by
        refine Finset.sum_congr rfl fun r _ => ?_
        ring_nf
    _ = ∑ r ∈ Finset.range K, ((K : ℚ) + 2 - ((r + 1 : ℕ) : ℚ)) * sizeAt l r := by
        push_cast
        rfl

/-- Helper: the field values of a successfully returned snapshot. -/
theorem get_current_snapshot_fields (book : Book) (session : String)
    (snap : Snapshot) (h : get_current_snapshot book session = some snap) :
    snap.bids = snapBids book ∧ snap.asks = snapAsks book ∧
    snap.session = session := by
  simp only [get_current_snapshot] at h
  by_cases h1 : book.bids = [] ∨ book.asks = []
  · rw [if_pos h1] at h; exact Option.noConfusion h
  · rw [if_neg h1] at h
    by_cases h2 : snapBids book = [] ∨ snapAsks book = []
    · rw [if_pos h2] at h; exact Option.noConfusion h
    · rw [if_neg h2] at h
      have h3 := Option.some.inj h
      subst h3
      exact ⟨rfl, rfl, rfl⟩

/-- C4 counterexample: the claimed rank weights (rank 1 weight K, rank K
weight 1) do not match the code: on a two-level book on each side the
code's weighted imbalance is -2/7 while the spec's weighting gives -1/4. -/
theorem c4_counterexample :
    (get_order_book_features twoBook "REGULAR").map Features.weighted_imbalance
      = some (-(2/7)) ∧
    weightedImbalanceSpec 2 [(100, 1), (99, 1)] [(101, 1), (102, 3)] = -(1/4) ∧
    ((-(2/7) : ℚ) ≠ -(1/4)) := by
  refine ⟨by with_unfolding_all rfl, ?_, by norm_num⟩
  norm_num [weightedImbalanceSpec, specRankSum, Finset.sum_range_succ,
    Finset.sum_range_zero, sizeAt]

/-- C4 amended: the weighted imbalance of `get_order_book_features` over
the top-K levels (K the effective depth `min(5, len(bids), len(asks))`)
weights levels by descending rank such that the rank-1 level gets weight
K+1 and the rank-K level gets weight 2 (rank r carries weight K + 2 - r),
and equals `(weighted_bid - weighted_ask)/(weighted_bid + weighted_ask)`,
with value 0 when the weighted sums do not add to a positive total (in
particular when both are 0). -/
theorem c4_weighted_rank (book : Book) (session : String) (f : Features)
    (hf : get_order_book_features book session = some f) :
    f.weighted_imbalance =
      (if 0 < specRankSum (effDepth book) (fun r => ((effDepth book : ℚ)) + 2 - r)
              (snapBids book) +
            specRankSum (effDepth book) (fun r => ((effDepth book : ℚ)) + 2 - r)
              (snapAsks book) then
        (specRankSum (effDepth book) (fun r => ((effDepth book : ℚ)) + 2 - r)
            (snapBids book) -
          specRankSum (effDepth book) (fun r => ((effDepth book : ℚ)) + 2 - r)
            (snapAsks book)) /
        (specRankSum (effDepth book) (fun r => ((effDepth book : ℚ)) + 2 - r)
            (snapBids book) +
          specRankSum (effDepth book) (fun r => ((effDepth book : ℚ)) + 2 - r)
            (snapAsks book))
      else 0) := by
  unfold get_order_book_features at hf
  cases hsnap : get_current_snapshot book session with
  | none => rw [hsnap] at hf; exact Option.noConfusion hf
  | some snap =>
    rw [hsnap] at hf
    simp only at hf
    obtain ⟨hb, ha, -⟩ := get_current_snapshot_fields book session snap hsnap
    by_cases hemp : snap.bids = [] ∨ snap.asks = []
    · rw [if_pos hemp] at hf; exact Option.noConfusion hf
    · rw [if_neg hemp] at hf
      have h3 := Option.some.inj hf
      subst h3
      dsimp only
      rw [hb, ha, weightedSum_take, weightedSum_take]
      rfl

/-- Witness for C4 amended on the concrete two-level book. -/
theorem c4_witness :
    (⟨201/2, 201/2, 20000/201, -(2/7), -(1/4), "REGULAR"⟩ : Features).weighted_imbalance
      = (if 0 < specRankSum (effDepth twoBook)
              (fun r => ((effDepth twoBook : ℚ)) + 2 - r) (snapBids twoBook) +
            specRankSum (effDepth twoBook)
              (fun r => ((effDepth twoBook : ℚ)) + 2 - r) (snapAsks twoBook) then
          (specRankSum (effDepth twoBook)
              (fun r => ((effDepth twoBook : ℚ)) + 2 - r) (snapBids twoBook) -
            specRankSum (effDepth twoBook)
              (fun r => ((effDepth twoBook : ℚ)) + 2 - r) (snapAsks twoBook)) /
          (specRankSum (effDepth twoBook)
              (fun r => ((effDepth twoBook : ℚ)) + 2 - r) (snapBids twoBook) +
            specRankSum (effDepth twoBook)
              (fun r => ((effDepth twoBook : ℚ)) + 2 - r) (snapAsks twoBook))
        else 0) :=
  c4_weighted_rank twoBook "REGULAR" _ (by with_unfolding_all rfl)

/-- Helper: the extended-hours depth narrowing inside
`calculate_queue_imbalance` is a no-op when the passed depth is already
`min(5, len(bids), len(asks))`, so the result does not depend on the
session. -/
theorem calculate_queue_imbalance_depth (s1 s2 : String)
    (bids asks : List (ℚ × ℚ)) :
    calculate_queue_imbalance s1 bids asks (min 5 (min bids.length asks.length)) =
      calculate_queue_imbalance s2 bids asks (min 5 (min bids.length asks.length)) := by
  have hlev : ∀ t : String,
      (if t = "PREMARKET" ∨ t = "AFTERHOURS" then
        min (min 5 (min bids.length asks.length)) (min bids.length asks.length)
      else min 5 (min bids.length asks.length)) =
        min 5 (min bids.length asks.length) := by
    intro t
    split_ifs with h
    · exact min_eq_left (min_le_right _ _)
    · rfl
  simp only [calculate_queue_imbalance, hlev]

/-- C10: the `queue_imbalance` feature of `get_order_book_features` is
independent of the market session: for a fixed book, evaluations differing
only in the session enum agree, because the depth passed on this call path
is already `min(5, len(bids), len(asks))` and the extended-hours narrowing
inside `calculate_queue_imbalance` cannot shrink it further. -/
theorem c10_queue_session_independent (book : Book) (s1 s2 : String) :
    (get_order_book_features book s1).map Features.queue_imbalance =
      (get_order_book_features book s2).map Features.queue_imbalance := by
  unfold get_order_book_features get_current_snapshot
  by_cases h1 : book.bids = [] ∨ book.asks = []
  · rw [if_pos h1, if_pos h1]
  · rw [if_neg h1, if_neg h1]
    by_cases h2 : snapBids book = [] ∨ snapAsks book = []
    · rw [if_pos h2, if_pos h2]
    · rw [if_neg h2, if_neg h2]
      dsimp only
      rw [if_neg h2, if_neg h2]
      simp only [Option.map_some']
      exact congrArg some (calculate_queue_imbalance_depth s1 s2 _ _)

/-- Helper: one dict-aggregation step keeps the price keys duplicate
free. -/
theorem insertLevel_keys (m : List (ℚ × ℚ)) (p s : ℚ)
    (h : (m.map Prod.fst).Nodup) : ((insertLevel m p s).map Prod.fst).Nodup := by
  unfold insertLevel
  split_ifs with hany
  · have heq : (m.map (fun kv => if kv.1 = p then (kv.1, kv.2 + s) else kv)).map
        Prod.fst = m.map Prod.fst := by
      rw [List.map_map]
      refine List.map_congr_left fun kv _ => ?_
      by_cases hkv : kv.1 = p <;> simp [hkv]
    rw [heq]
    exact h
  · rw [List.map_append, List.nodup_append]
    refine ⟨h, List.nodup_singleton p, ?_⟩
    simp only [List.any_eq_true, decide_eq_true_eq, not_exists, not_and] at hany
    intro q hq hq1
    simp only [List.map_cons, List.map_nil, List.mem_singleton] at hq1
    subst hq1
    rcases List.mem_map.mp hq with ⟨kv, hkv, hfst⟩
    exact hany kv hkv hfst

/-- Helper: after a full-depth rebuild of one side, no two levels share a
rounded price. -/
theorem aggregateSide_keys (levels : List (ℚ × ℚ)) :
    ((aggregateSide levels).map Prod.fst).Nodup := by
  unfold aggregateSide
  suffices h : ∀ acc : List (ℚ × ℚ), (acc.map Prod.fst).Nodup →
      ((levels.foldl
          (fun m l => if 0 < l.1 ∧ 0 < l.2 then insertLevel m (round2 l.1) l.2 else m)
          acc).map Prod.fst).Nodup by
    exact h [] (by simp)
  induction levels with
  | nil => intro acc hacc; simpa using hacc
  | cons x rest ih =>
    intro acc hacc
    rw [List.foldl_cons]
    apply ih
    by_cases hx : 0 < x.1 ∧ 0 < x.2
    · rw [if_pos hx]; exact insertLevel_keys _ _ _ hacc
    · rw [if_neg hx]; exact hacc

/-- Helper: sorting, reversing and truncating preserve duplicate-free
price keys, so a returned snapshot inherits them from the book. -/
theorem snapshot_keys_nodup (book : Book) (session : String) (snap : Snapshot)
    (hb : (book.bids.map Prod.fst).Nodup) (ha : (book.asks.map Prod.fst).Nodup)
    (h : get_current_snapshot book session = some snap) :
    (snap.bids.map Prod.fst).Nodup ∧ (snap.asks.map Prod.fst).Nodup := by
  obtain ⟨hbs, has, -⟩ := get_current_snapshot_fields book session snap h
  constructor
  · rw [hbs]
    unfold snapBids
    apply List.Nodup.sublist ((List.take_sublist _ _).map Prod.fst)
    rw [List.map_reverse, List.nodup_reverse]
    exact ((List.perm_insertionSort pairLe book.bids).map Prod.fst).nodup_iff.mpr hb
  · rw [has]
    unfold snapAsks
    apply List.Nodup.sublist ((List.take_sublist _ _).map Prod.fst)
    exact ((List.perm_insertionSort pairLe book.asks).map Prod.fst).nodup_iff.mpr ha

/-- C8: re-applying the identical full-depth batch is idempotent — the
rebuilt book and hence the snapshot are unchanged — and every snapshot
taken after an update has duplicate-free rounded prices on each side. -/
theorem c8_idempotent_nodup :
    (∀ (book : Book) (domBids domAsks : List (ℚ × ℚ)) (session : String),
        on_ticker_update (on_ticker_update book domBids domAsks) domBids domAsks =
          on_ticker_update book domBids domAsks ∧
        get_current_snapshot
            (on_ticker_update (on_ticker_update book domBids domAsks) domBids domAsks)
            session =
          get_current_snapshot (on_ticker_update book domBids domAsks) session) ∧
    (∀ (book : Book) (domBids domAsks : List (ℚ × ℚ)) (session : String)
        (snap : Snapshot),
        get_current_snapshot (on_ticker_update book domBids domAsks) session
          = some snap →
        (snap.bids.map Prod.fst).Nodup ∧ (snap.asks.map Prod.fst).Nodup) := by
  constructor
  · exact fun _ _ _ _ => ⟨rfl, rfl⟩
  · intro book domBids domAsks session snap h
    exact snapshot_keys_nodup _ session snap (aggregateSide_keys domBids)
      (aggregateSide_keys domAsks) h

/-- Witness for C8 on a one-level update batch applied to the empty
book. -/
theorem c8_witness :
    (((⟨"REGULAR", [(10, 5)], [(11, 3)], 10, 11, 1⟩ : Snapshot).bids.map
      Prod.fst).Nodup) ∧
    (((⟨"REGULAR", [(10, 5)], [(11, 3)], 10, 11, 1⟩ : Snapshot).asks.map
      Prod.fst).Nodup) :=
  c8_idempotent_nodup.2 ⟨[], []⟩ [(10, 5)] [(11, 3)] "REGULAR" _
    (by with_unfolding_all rfl)

end Level2
